import Mathlib

/-!
Verification of the reply-markup builder (`telethon/types/_custom/button.py`).

The Python module is embedded shallowly: the low-level `_tl` button objects
become an inductive `TLButton`, the `Button` helper class becomes a structure
holding a low-level button plus the three optional keyboard hints, and
`build_reply_markup` becomes a function over an explicit input-shape type
returning `Except BuildError (Option ReplyMarkup)`.  Python byte strings are
`List Nat`, Python `None`/absent values are `Option`, and the exceptions the
code can raise (`ValueError`, `TypeError` from iterating a non-sequence,
`AttributeError` from a missing `SUBCLASS_OF_ID`) become `BuildError`.
-/

namespace Telethon

/-- UTF-8 encoding of a single unicode scalar value, as Python's
`str.encode('utf-8')` produces for one character. -/
def utf8Char (c : Nat) : List Nat :=
  if c < 0x80 then [c]
  else if c < 0x800 then [0xC0 + c / 0x40, 0x80 + c % 0x40]
  else if c < 0x10000 then
    [0xE0 + c / 0x1000, 0x80 + (c / 0x40) % 0x40, 0x80 + c % 0x40]
  else
    [0xF0 + c / 0x40000, 0x80 + (c / 0x1000) % 0x40,
     0x80 + (c / 0x40) % 0x40, 0x80 + c % 0x40]

/-- Python's `s.encode('utf-8')` for a string, one byte list. -/
def utf8Bytes (s : String) : List Nat :=
  (s.data.map (fun c => utf8Char c.toNat)).flatten

/-- The low-level `_tl.KeyboardButton*` objects produced by the `Button`
constructors.  Each constructor carries the fields the Python code passes. -/
inductive TLButton where
  | keyboardButtonBuy (text : String)
  | keyboardButtonCallback (text : String) (data : List Nat)
  | keyboardButtonGame (text : String)
  | keyboardButtonSwitchInline (text : String) (query : String) (same_peer : Bool)
  | keyboardButtonUserProfile (text : String) (user_id : Nat)
  | keyboardButtonUrl (text : String) (url : String)
  | inputKeyboardButtonUrlAuth (text : String) (url : String) (bot : Nat)
      (request_write_access : Bool) (fwd_text : Option String)
  | inputKeyboardButtonUserProfile (text : String) (user_id : Nat)
  | keyboardButton (text : String)
  | keyboardButtonRequestGeoLocation (text : String)
  | keyboardButtonRequestPhone (text : String)
  | keyboardButtonRequestPoll (text : String) (quiz : Bool)
deriving DecidableEq

/-- `_tl.KeyboardButtonRow`: one row of low-level buttons. -/
structure KeyboardButtonRow where
  buttons : List TLButton
deriving DecidableEq

/-- The `_tl` objects whose protocol type is `ReplyMarkup`: the two markup
shapes the builder produces plus the two directives `Button.clear` /
`Button.force_reply` construct. -/
inductive ReplyMarkup where
  | replyKeyboardHide (selective : Option Bool)
  | replyKeyboardForceReply (single_use : Option Bool) (selective : Option Bool)
      (placeholder : Option String)
  | replyInlineMarkup (rows : List KeyboardButtonRow)
  | replyKeyboardMarkup (rows : List KeyboardButtonRow) (resize : Option Bool)
      (single_use : Option Bool) (selective : Option Bool)
deriving DecidableEq

/-- `crc32(b'ReplyMarkup')`, the discriminant `build_reply_markup` compares
against at its pass-through check. -/
def SUBCLASS_OF_ReplyMarkup : Nat := 0xe2e10ef2

/-- `crc32(b'KeyboardButton')`, the discriminant the per-button filter
compares against. -/
def SUBCLASS_OF_KeyboardButton : Nat := 0x0bad74a3

/-- Modelled from the spec: the protocol tag check "recognizes already-built
markup objects and low-level button objects by a protocol-defined
discriminant".  The `_tl` module defining these objects is not part of the
sources; in the protocol schema every `KeyboardButton*` and
`InputKeyboardButton*` constructor belongs to the `KeyboardButton` type, so
its `SUBCLASS_OF_ID` is `crc32(b'KeyboardButton')`. -/
def TLButton.SUBCLASS_OF_ID (_ : TLButton) : Nat := SUBCLASS_OF_KeyboardButton

/-- Modelled from the spec: in the protocol schema `replyKeyboardHide`,
`replyKeyboardForceReply`, `replyInlineMarkup` and `replyKeyboardMarkup` are
the constructors of the `ReplyMarkup` type, so their `SUBCLASS_OF_ID` is
`crc32(b'ReplyMarkup')`. -/
def ReplyMarkup.SUBCLASS_OF_ID (_ : ReplyMarkup) : Nat := SUBCLASS_OF_ReplyMarkup

/-- The `Button` helper class: a low-level button plus the three optional
keyboard-wide hints taken by `Button.__init__`. -/
structure Button where
  button : TLButton
  resize : Option Bool
  single_use : Option Bool
  selective : Option Bool
deriving DecidableEq

/-- `Button._is_inline`: the `isinstance` check listing the button kinds that
belong to an inline keyboard. -/
def Button.is_inline : TLButton → Bool
  | .keyboardButtonBuy _ => true
  | .keyboardButtonCallback _ _ => true
  | .keyboardButtonGame _ => true
  | .keyboardButtonSwitchInline _ _ _ => true
  | .keyboardButtonUserProfile _ _ => true
  | .keyboardButtonUrl _ _ => true
  | .inputKeyboardButtonUrlAuth _ _ _ _ _ => true
  | _ => false

/-- The `data` argument of `Button.inline`: absent, a byte string, or text.
Python falsiness (`if not data`) holds for absent data, `b''` and `''`. -/
inductive InlineData where
  | noneD
  | bytes (b : List Nat)
  | str (s : String)
deriving DecidableEq

/-- `Button.inline(text, data=None)`. -/
def Button.inline (text : String) (data : InlineData) : Except String TLButton :=
  let d : List Nat :=
    match data with
    | .noneD => utf8Bytes text
    | .bytes [] => utf8Bytes text
    | .bytes b => b
    | .str "" => utf8Bytes text
    | .str s => utf8Bytes s
  if d.length > 64 then .error "Too many bytes for the data"
  else .ok (.keyboardButtonCallback text d)

/-- `Button.switch_inline(text, query='', same_peer=False)`. -/
def Button.switch_inline (text : String) (query : String) (same_peer : Bool) :
    TLButton :=
  .keyboardButtonSwitchInline text query same_peer

/-- `Button.url(text, url=None)`: `url or text`, the empty string and `None`
both falling back to `text`. -/
def Button.url (text : String) (url : Option String) : TLButton :=
  .keyboardButtonUrl text
    (match url with
     | some u => if u = "" then text else u
     | none => text)

/-- `Button.text(text, resize=None, single_use=None, selective=None)`. -/
def Button.text (t : String) (resize : Option Bool) (single_use : Option Bool)
    (selective : Option Bool) : Button :=
  ⟨.keyboardButton t, resize, single_use, selective⟩

/-- `Button.request_location`. -/
def Button.request_location (t : String) (resize : Option Bool)
    (single_use : Option Bool) (selective : Option Bool) : Button :=
  ⟨.keyboardButtonRequestGeoLocation t, resize, single_use, selective⟩

/-- `Button.request_phone`. -/
def Button.request_phone (t : String) (resize : Option Bool)
    (single_use : Option Bool) (selective : Option Bool) : Button :=
  ⟨.keyboardButtonRequestPhone t, resize, single_use, selective⟩

/-- `Button.request_poll(text, force_quiz=False, ...)`. -/
def Button.request_poll (t : String) (force_quiz : Bool) (resize : Option Bool)
    (single_use : Option Bool) (selective : Option Bool) : Button :=
  ⟨.keyboardButtonRequestPoll t force_quiz, resize, single_use, selective⟩

/-- `Button.clear(selective=None)`. -/
def Button.clear (selective : Option Bool) : ReplyMarkup :=
  .replyKeyboardHide selective

/-- `Button.force_reply(single_use=None, selective=None, placeholder=None)`. -/
def Button.force_reply (single_use : Option Bool) (selective : Option Bool)
    (placeholder : Option String) : ReplyMarkup :=
  .replyKeyboardForceReply single_use selective placeholder

/-- `Button.buy(text)`. -/
def Button.buy (text : String) : TLButton := .keyboardButtonBuy text

/-- `Button.game(text)`. -/
def Button.game (text : String) : TLButton := .keyboardButtonGame text

/-- `MessageButton` wraps a low-level button in its `button` attribute. -/
structure MessageButton where
  button : TLButton
deriving DecidableEq

/-- The kinds of objects that can appear as one element of the builder's
input: a `Button` descriptor, a `MessageButton`, a raw low-level button, or
an already-built `ReplyMarkup` object. -/
inductive MarkupItem where
  | descriptor (b : Button)
  | messageButton (b : MessageButton)
  | raw (b : TLButton)
  | markupObj (m : ReplyMarkup)
deriving DecidableEq

/-- A Python value inside the (possibly nested) button collection: a plain
object or a list of such values. -/
inductive Entry where
  | item (i : MarkupItem)
  | row (cells : List Entry)

/-- `utils.is_list_like` on the values the builder can meet: lists are
list-like, the button/markup objects are not. -/
def Entry.is_list_like : Entry → Bool
  | .item _ => false
  | .row _ => true

/-- The `buttons` argument of `build_reply_markup`: `None`, one object, or a
list. -/
inductive Buttons where
  | noneB
  | single (i : MarkupItem)
  | list (entries : List Entry)

/-- The exceptions `build_reply_markup` can raise: `ValueError` with its
message, `TypeError` from iterating a non-sequence row, `AttributeError`
from reading `SUBCLASS_OF_ID` off a nested list. -/
inductive BuildError where
  | valueError (msg : String)
  | typeError
  | attributeError
deriving DecidableEq

/-- The builder's local accumulators: the two category flags, the three
keyboard hints and the collected rows. -/
structure Acc where
  is_inline : Bool
  is_normal : Bool
  resize : Option Bool
  single_use : Option Bool
  selective : Option Bool
  rows : List KeyboardButtonRow
deriving DecidableEq

/-- The initial accumulator state of one `build_reply_markup` call. -/
def Acc.init : Acc := ⟨false, false, none, none, none, []⟩

/-- `if button.resize is not None: resize = button.resize` — a non-absent
hint overwrites the accumulator, an absent one leaves it alone. -/
def mergeHint (acc : Option Bool) (b : Option Bool) : Option Bool :=
  match b with
  | some v => some v
  | none => acc

/-- The body of the inner `for button in row` loop for one plain object:
unwrap descriptors and message buttons (merging hints), classify with
`Button._is_inline`, and append to the current row when the discriminant is
`crc32(b'KeyboardButton')`. -/
def stepItem (s : Acc × List TLButton) (i : MarkupItem) : Acc × List TLButton :=
  let acc := s.1
  let current := s.2
  let pair : Acc × (TLButton ⊕ ReplyMarkup) :=
    match i with
    | .descriptor b =>
        ({ acc with
            resize := mergeHint acc.resize b.resize,
            single_use := mergeHint acc.single_use b.single_use,
            selective := mergeHint acc.selective b.selective },
         Sum.inl b.button)
    | .messageButton b => (acc, Sum.inl b.button)
    | .raw b => (acc, Sum.inl b)
    | .markupObj m => (acc, Sum.inr m)
  let acc := pair.1
  let inl : Bool :=
    match pair.2 with
    | Sum.inl b => Button.is_inline b
    | Sum.inr _ => false
  let acc := { acc with is_inline := acc.is_inline || inl,
                        is_normal := acc.is_normal || !inl }
  match pair.2 with
  | Sum.inl b =>
      if b.SUBCLASS_OF_ID == SUBCLASS_OF_KeyboardButton then (acc, current ++ [b])
      else (acc, current)
  | Sum.inr _ =>
      -- a reply-markup object carries SUBCLASS_OF_ID 0xe2e10ef2, which is not
      -- crc32(b'KeyboardButton'), so the append is skipped and it is dropped
      (acc, current)

/-- One iteration of the inner loop on an arbitrary cell: a nested list has
no `SUBCLASS_OF_ID` attribute, so reading it raises `AttributeError`. -/
def stepCell (s : Acc × List TLButton) (cell : Entry) :
    Except BuildError (Acc × List TLButton) :=
  match cell with
  | .item i => .ok (stepItem s i)
  | .row _ => .error .attributeError

/-- One iteration of the outer `for row in buttons` loop: iterating a plain
object raises `TypeError`; otherwise run the inner loop and append the
current row when it is non-empty. -/
def stepRow (acc : Acc) (r : Entry) : Except BuildError Acc :=
  match r with
  | .item _ => .error .typeError
  | .row cells =>
      match cells.foldlM stepCell (acc, []) with
      | .error e => .error e
      | .ok (acc, current) =>
          .ok (if current.isEmpty then acc
               else { acc with rows := acc.rows ++ [⟨current⟩] })

/-- The validation and output selection at the end of `build_reply_markup`. -/
def buildFinish (acc : Acc) (inline_only : Bool) :
    Except BuildError (Option ReplyMarkup) :=
  if inline_only && acc.is_normal then
    .error (.valueError "You cannot use non-inline buttons here")
  else if (acc.is_inline == acc.is_normal) && acc.is_normal then
    .error (.valueError "You cannot mix inline with normal buttons")
  else if acc.is_inline then
    .ok (some (.replyInlineMarkup acc.rows))
  else
    .ok (some (.replyKeyboardMarkup acc.rows acc.resize acc.single_use acc.selective))

/-- The main loop plus the final validation, on an already-normalized list of
rows. -/
def buildRows (rowsIn : List Entry) (inline_only : Bool) :
    Except BuildError (Option ReplyMarkup) :=
  match rowsIn.foldlM stepRow Acc.init with
  | .error e => .error e
  | .ok acc => buildFinish acc inline_only

/-- `build_reply_markup(buttons, inline_only=False)`. -/
def build_reply_markup (buttons : Buttons) (inline_only : Bool) :
    Except BuildError (Option ReplyMarkup) :=
  match buttons with
  | .noneB => .ok none
  | .single i =>
      match i with
      | .markupObj m =>
          -- `buttons.SUBCLASS_OF_ID == 0xe2e10ef2` (crc32 of b'ReplyMarkup')
          if m.SUBCLASS_OF_ID == SUBCLASS_OF_ReplyMarkup then .ok (some m)
          else buildRows [.row [.item i]] inline_only
      | _ =>
          -- raw buttons carry 0xbad74a3, not the markup discriminant, and
          -- descriptors and message buttons have no SUBCLASS_OF_ID at all
          -- (the AttributeError is caught and passed); either way the single
          -- object is wrapped into a one-row, one-button grid
          buildRows [.row [.item i]] inline_only
  | .list [] => .ok none
  | .list (first :: rest) =>
      let rowsIn :=
        if first.is_list_like then first :: rest
        else (first :: rest).map (fun e => Entry.row [e])
      buildRows rowsIn inline_only

/-! Derived notions used to state properties of the builder. -/

deriving instance DecidableEq for Except

/-- The low-level button underlying one input object, when there is one:
descriptors and message buttons are unwrapped, a raw button is itself, and a
markup object is not a button. -/
def itemButton : MarkupItem → Option TLButton
  | .descriptor b => some b.button
  | .messageButton b => some b.button
  | .raw b => some b
  | .markupObj _ => none

/-- What `Button._is_inline` returns on the unwrapped object: `false` for a
markup object (it is not one of the listed `isinstance` kinds). -/
def seenInline : MarkupItem → Bool
  | .descriptor b => Button.is_inline b.button
  | .messageButton b => Button.is_inline b.button
  | .raw b => Button.is_inline b
  | .markupObj _ => false

/-- The `resize` hint one input object contributes (only descriptors do). -/
def itemResize : MarkupItem → Option Bool
  | .descriptor b => b.resize
  | _ => none

/-- The `single_use` hint one input object contributes. -/
def itemSingleUse : MarkupItem → Option Bool
  | .descriptor b => b.single_use
  | _ => none

/-- The `selective` hint one input object contributes. -/
def itemSelective : MarkupItem → Option Bool
  | .descriptor b => b.selective
  | _ => none

/-- The rows a flat sequence of objects produces: each object that carries a
button becomes its own one-button row, the rest are dropped. -/
def flatRows (items : List MarkupItem) : List KeyboardButtonRow :=
  items.filterMap (fun i => (itemButton i).map (fun b => ⟨[b]⟩))

/-- The row list an explicit grid produces: each row keeps its buttons in
order and rows left empty after filtering are omitted. -/
def gridRowsOut (grid : List (List MarkupItem)) : List KeyboardButtonRow :=
  grid.filterMap (fun r =>
    if (r.filterMap itemButton).isEmpty then none
    else some ⟨r.filterMap itemButton⟩)

/-- The category invariant of a markup object: inline markup holds only
inline-category buttons, keyboard markup only keyboard-category buttons. -/
def markupInvariant : ReplyMarkup → Bool
  | .replyInlineMarkup rows => rows.all (fun r => r.buttons.all Button.is_inline)
  | .replyKeyboardMarkup rows _ _ _ =>
      rows.all (fun r => r.buttons.all (fun b => !Button.is_inline b))
  | _ => true

/-! Characterization of the builder's loops. -/

/-- One plain object updates the accumulator fields pointwise and appends its
underlying button (every low-level button passes the discriminant filter; a
markup object is dropped). -/
theorem stepItem_eq (acc : Acc) (cur : List TLButton) (i : MarkupItem) :
    stepItem (acc, cur) i =
      ({ is_inline := acc.is_inline || seenInline i,
         is_normal := acc.is_normal || !seenInline i,
         resize := mergeHint acc.resize (itemResize i),
         single_use := mergeHint acc.single_use (itemSingleUse i),
         selective := mergeHint acc.selective (itemSelective i),
         rows := acc.rows },
       cur ++ (itemButton i).toList) := by
  cases i <;>
    simp [stepItem, seenInline, itemResize, itemSingleUse, itemSelective,
      itemButton, mergeHint, TLButton.SUBCLASS_OF_ID]

/-- The inner loop never raises while it only meets plain objects, and it is
the pure fold of `stepItem`. -/
theorem foldlM_stepCell_items (r : List MarkupItem) :
    ∀ s : Acc × List TLButton,
      (r.map Entry.item).foldlM stepCell s = .ok (r.foldl stepItem s) := by
  induction r with
  | nil => intro s; rfl
  | cons i t ih =>
      intro s
      simp only [List.map_cons, List.foldlM_cons, stepCell, List.foldl_cons]
      exact ih (stepItem s i)

/-- The pure fold of `stepItem` over a row of plain objects, field by field:
the category flags accumulate by disjunction, the hints merge left to right,
the kept buttons are exactly the underlying low-level buttons, and the
collected rows are untouched. -/
theorem foldl_stepItem_eq (r : List MarkupItem) :
    ∀ (acc : Acc) (cur : List TLButton),
      r.foldl stepItem (acc, cur) =
        ({ is_inline := acc.is_inline || r.any seenInline,
           is_normal := acc.is_normal || r.any (fun i => !seenInline i),
           resize := (r.map itemResize).foldl mergeHint acc.resize,
           single_use := (r.map itemSingleUse).foldl mergeHint acc.single_use,
           selective := (r.map itemSelective).foldl mergeHint acc.selective,
           rows := acc.rows },
         cur ++ r.filterMap itemButton) := by
  induction r with
  | nil => intro acc cur; simp
  | cons i t ih =>
      intro acc cur
      rw [List.foldl_cons, stepItem_eq, ih]
      cases hb : itemButton i <;>
        simp [List.filterMap_cons, hb, Bool.or_assoc, List.append_assoc]

/-- One outer-loop iteration on a row of plain objects. -/
theorem stepRow_items (acc : Acc) (r : List MarkupItem) :
    stepRow acc (.row (r.map .item)) =
      .ok { is_inline := acc.is_inline || r.any seenInline,
            is_normal := acc.is_normal || r.any (fun i => !seenInline i),
            resize := (r.map itemResize).foldl mergeHint acc.resize,
            single_use := (r.map itemSingleUse).foldl mergeHint acc.single_use,
            selective := (r.map itemSelective).foldl mergeHint acc.selective,
            rows := acc.rows ++
              (if (r.filterMap itemButton).isEmpty then []
               else [⟨r.filterMap itemButton⟩]) } := by
  rw [stepRow, foldlM_stepCell_items, foldl_stepItem_eq]
  cases h : (r.filterMap itemButton).isEmpty <;>
    simp_all [List.isEmpty_iff]

/-- The whole outer loop on an explicit grid of plain objects: it never
raises, the flags and hints accumulate row-major left to right, and the rows
collected from `Acc.init` are `gridRowsOut`. -/
theorem foldlM_stepRow_grid (grid : List (List MarkupItem)) :
    ∀ acc : Acc,
      (grid.map (fun r => Entry.row (r.map .item))).foldlM stepRow acc =
        .ok { is_inline := acc.is_inline || grid.any (fun r => r.any seenInline),
              is_normal := acc.is_normal ||
                grid.any (fun r => r.any (fun i => !seenInline i)),
              resize := (grid.map (fun r => r.map itemResize)).foldl
                (fun a hs => hs.foldl mergeHint a) acc.resize,
              single_use := (grid.map (fun r => r.map itemSingleUse)).foldl
                (fun a hs => hs.foldl mergeHint a) acc.single_use,
              selective := (grid.map (fun r => r.map itemSelective)).foldl
                (fun a hs => hs.foldl mergeHint a) acc.selective,
              rows := acc.rows ++ gridRowsOut grid } := by
  induction grid with
  | nil => intro acc; simp [gridRowsOut]; rfl
  | cons r t ih =>
      intro acc
      rw [List.map_cons, List.foldlM_cons, stepRow_items]
      show (t.map (fun r => Entry.row (r.map .item))).foldlM stepRow _ = _
      rw [ih]
      cases h : (r.filterMap itemButton).isEmpty <;>
        simp_all [gridRowsOut, List.isEmpty_iff, Bool.or_assoc, List.filterMap_cons,
          List.append_assoc]

/-- Folding `mergeHint` yields the last non-absent value, the seed counting
as the first candidate. -/
theorem foldl_mergeHint_eq (hs : List (Option Bool)) :
    ∀ a : Option Bool,
      hs.foldl mergeHint a = ((a :: hs).filterMap id).getLast? := by
  induction hs with
  | nil => intro a; cases a <;> simp
  | cons h t ih =>
      intro a
      rw [List.foldl_cons, ih]
      cases h with
      | some v => cases a <;> simp [mergeHint, List.getLast?_cons_cons]
      | none => cases a <;> simp [mergeHint]

/-- From an absent seed, folding `mergeHint` is exactly the last non-absent
hint of the list, if any. -/
theorem foldl_mergeHint_none (hs : List (Option Bool)) :
    hs.foldl mergeHint none = (hs.filterMap id).getLast? := by
  rw [foldl_mergeHint_eq]
  simp

/-- A grid of one-object rows collects the same rows as the flat wrap-up. -/
theorem gridRowsOut_singletons (items : List MarkupItem) :
    gridRowsOut (items.map (fun i => [i])) = flatRows items := by
  induction items with
  | nil => rfl
  | cons i t ih =>
      cases hb : itemButton i <;>
        simp [gridRowsOut, flatRows, List.filterMap_cons, hb] <;>
        simpa [gridRowsOut, flatRows] using ih

/-- The whole outer loop after the flat wrap-up `[[b] for b in buttons]`:
one singleton row per object. -/
theorem foldlM_stepRow_flat (items : List MarkupItem) :
    ∀ acc : Acc,
      (items.map (fun j => Entry.row [Entry.item j])).foldlM stepRow acc =
        .ok { is_inline := acc.is_inline || items.any seenInline,
              is_normal := acc.is_normal || items.any (fun j => !seenInline j),
              resize := (items.map itemResize).foldl mergeHint acc.resize,
              single_use := (items.map itemSingleUse).foldl mergeHint acc.single_use,
              selective := (items.map itemSelective).foldl mergeHint acc.selective,
              rows := acc.rows ++ flatRows items } := by
  induction items with
  | nil => intro acc; simp [flatRows]; rfl
  | cons i t ih =>
      intro acc
      rw [List.map_cons, List.foldlM_cons,
        show stepRow acc (Entry.row [Entry.item i]) =
          stepRow acc (Entry.row ([i].map Entry.item)) from rfl,
        stepRow_items]
      show (t.map (fun j => Entry.row [Entry.item j])).foldlM stepRow _ = _
      rw [ih]
      cases hb : itemButton i <;>
        simp_all [flatRows, List.filterMap_cons, Bool.or_assoc, List.append_assoc,
          mergeHint]

/-- Reduction of `build_reply_markup` on a flat, non-empty sequence of plain
objects: the first element is not list-like, so every element is wrapped into
its own one-object row. -/
theorem build_flat (i : MarkupItem) (t : List MarkupItem) (io : Bool) :
    build_reply_markup (.list ((i :: t).map .item)) io =
      buildFinish
        { is_inline := (i :: t).any seenInline,
          is_normal := (i :: t).any (fun j => !seenInline j),
          resize := ((i :: t).map itemResize).foldl mergeHint none,
          single_use := ((i :: t).map itemSingleUse).foldl mergeHint none,
          selective := ((i :: t).map itemSelective).foldl mergeHint none,
          rows := flatRows (i :: t) } io := by
  show buildRows (((i :: t).map Entry.item).map (fun e => Entry.row [e])) io = _
  rw [List.map_map]
  show buildRows ((i :: t).map (fun j => Entry.row [Entry.item j])) io = _
  rw [buildRows, foldlM_stepRow_flat]
  exact rfl

/-- Reduction of `build_reply_markup` on an explicit non-empty grid: the
first element is list-like, so the rows are used as given. -/
theorem build_grid (r0 : List MarkupItem) (t : List (List MarkupItem)) (io : Bool) :
    build_reply_markup
        (.list ((r0 :: t).map (fun r => Entry.row (r.map .item)))) io =
      buildFinish
        { is_inline := (r0 :: t).any (fun r => r.any seenInline),
          is_normal := (r0 :: t).any (fun r => r.any (fun i => !seenInline i)),
          resize := ((r0 :: t).map (fun r => r.map itemResize)).foldl
            (fun a hs => hs.foldl mergeHint a) none,
          single_use := ((r0 :: t).map (fun r => r.map itemSingleUse)).foldl
            (fun a hs => hs.foldl mergeHint a) none,
          selective := ((r0 :: t).map (fun r => r.map itemSelective)).foldl
            (fun a hs => hs.foldl mergeHint a) none,
          rows := gridRowsOut (r0 :: t) } io := by
  show buildRows ((r0 :: t).map (fun r => Entry.row (r.map .item))) io = _
  rw [buildRows, foldlM_stepRow_grid]
  exact rfl

/-- Reduction of `build_reply_markup` on one plain object that is not an
already-built markup: it becomes a one-row, one-object grid. -/
theorem build_single_nonmarkup (i : MarkupItem) (io : Bool)
    (h : ∀ m, i ≠ .markupObj m) :
    build_reply_markup (.single i) io =
      buildFinish
        { is_inline := seenInline i, is_normal := !seenInline i,
          resize := itemResize i, single_use := itemSingleUse i,
          selective := itemSelective i,
          rows := flatRows [i] } io := by
  have hred : build_reply_markup (.single i) io = buildRows [.row [.item i]] io := by
    cases i with
    | markupObj m => exact absurd rfl (h m)
    | descriptor b => rfl
    | messageButton b => rfl
    | raw b => rfl
  rw [hred]
  show buildRows ([i].map (fun j => Entry.row [Entry.item j])) io = _
  rw [buildRows, foldlM_stepRow_flat]
  cases hr : itemResize i <;> cases hs : itemSingleUse i <;> cases hsel : itemSelective i <;>
    simp [Acc.init, mergeHint, hr, hs, hsel]

/-! The category invariant maintained by the builder's loops. -/

/-- If an input object carries a button, `Button._is_inline` of the unwrapped
object is `Button._is_inline` of that button. -/
theorem seenInline_itemButton (i : MarkupItem) (b : TLButton)
    (hb : itemButton i = some b) : seenInline i = Button.is_inline b := by
  cases i <;> simp_all [itemButton, seenInline]

/-- Mid-row invariant: while no keyboard-category object has been seen, all
collected buttons are inline, and while no inline-category object has been
seen, all collected buttons are keyboard. -/
def stateInv (acc : Acc) (cur : List TLButton) : Prop :=
  (acc.is_normal = false →
    (∀ r ∈ acc.rows, ∀ b ∈ r.buttons, Button.is_inline b = true) ∧
    (∀ b ∈ cur, Button.is_inline b = true)) ∧
  (acc.is_inline = false →
    (∀ r ∈ acc.rows, ∀ b ∈ r.buttons, Button.is_inline b = false) ∧
    (∀ b ∈ cur, Button.is_inline b = false))

/-- `stepItem` preserves the mid-row invariant. -/
theorem stepItem_inv (acc : Acc) (cur : List TLButton) (i : MarkupItem)
    (h : stateInv acc cur) :
    stateInv (stepItem (acc, cur) i).1 (stepItem (acc, cur) i).2 := by
  rw [stepItem_eq]
  constructor
  · intro hn
    simp only [Bool.or_eq_false_iff] at hn
    obtain ⟨hn1, hn2⟩ := hn
    refine ⟨(h.1 hn1).1, ?_⟩
    intro b hbmem
    rcases List.mem_append.mp hbmem with hmem | hmem
    · exact (h.1 hn1).2 b hmem
    · have hb : itemButton i = some b := by
        simpa [Option.mem_def] using Option.mem_toList.mp hmem
      rw [← seenInline_itemButton i b hb]
      simpa using hn2
  · intro hn
    simp only [Bool.or_eq_false_iff] at hn
    obtain ⟨hn1, hn2⟩ := hn
    refine ⟨(h.2 hn1).1, ?_⟩
    intro b hbmem
    rcases List.mem_append.mp hbmem with hmem | hmem
    · exact (h.2 hn1).2 b hmem
    · have hb : itemButton i = some b := by
        simpa [Option.mem_def] using Option.mem_toList.mp hmem
      rw [← seenInline_itemButton i b hb]
      exact hn2

/-- The inner loop preserves the mid-row invariant whenever it succeeds. -/
theorem foldlM_stepCell_inv (cells : List Entry) :
    ∀ s s' : Acc × List TLButton, stateInv s.1 s.2 →
      cells.foldlM stepCell s = .ok s' → stateInv s'.1 s'.2 := by
  induction cells with
  | nil =>
      intro s s' h he
      cases he
      exact h
  | cons c t ih =>
      intro s s' h he
      cases c with
      | row cs =>
          have hred : (Entry.row cs :: t).foldlM stepCell s =
              Except.error .attributeError := rfl
          rw [hred] at he
          cases he
      | item i =>
          obtain ⟨acc, cur⟩ := s
          exact ih _ s' (stepItem_inv acc cur i h) he

/-- Between rows, the invariant on the accumulator alone. -/
def accInv (acc : Acc) : Prop :=
  (acc.is_normal = false →
    ∀ r ∈ acc.rows, ∀ b ∈ r.buttons, Button.is_inline b = true) ∧
  (acc.is_inline = false →
    ∀ r ∈ acc.rows, ∀ b ∈ r.buttons, Button.is_inline b = false)

/-- `stepRow` preserves the between-rows invariant whenever it succeeds. -/
theorem stepRow_inv (acc : Acc) (e : Entry) (acc' : Acc) (h : accInv acc)
    (he : stepRow acc e = .ok acc') : accInv acc' := by
  cases e with
  | item i => exact absurd he (by simp [stepRow])
  | row cells =>
      rw [stepRow] at he
      cases hf : cells.foldlM stepCell (acc, []) with
      | error err => rw [hf] at he; cases he
      | ok p =>
          rw [hf] at he
          have hp : stateInv p.1 p.2 :=
            foldlM_stepCell_inv cells (acc, []) p
              ⟨fun hn => ⟨h.1 hn, by simp⟩, fun hn => ⟨h.2 hn, by simp⟩⟩ hf
          have hacc : acc' = if p.2.isEmpty then p.1
              else { p.1 with rows := p.1.rows ++ [⟨p.2⟩] } := by
            cases he
            rfl
          cases hemp : p.2.isEmpty with
          | true => rw [hacc, if_pos hemp]; exact ⟨fun hn => (hp.1 hn).1, fun hn => (hp.2 hn).1⟩
          | false =>
              rw [hacc, if_neg (by simp [hemp])]
              constructor
              · intro hn
                intro r hr b hb
                rcases List.mem_append.mp hr with hr | hr
                · exact (hp.1 hn).1 r hr b hb
                · have : r = ⟨p.2⟩ := by simpa using hr
                  exact (hp.1 hn).2 b (by simpa [this] using hb)
              · intro hn
                intro r hr b hb
                rcases List.mem_append.mp hr with hr | hr
                · exact (hp.2 hn).1 r hr b hb
                · have : r = ⟨p.2⟩ := by simpa using hr
                  exact (hp.2 hn).2 b (by simpa [this] using hb)

/-- The outer loop preserves the between-rows invariant whenever it
succeeds. -/
theorem foldlM_stepRow_inv (es : List Entry) :
    ∀ acc acc' : Acc, accInv acc →
      es.foldlM stepRow acc = .ok acc' → accInv acc' := by
  induction es with
  | nil =>
      intro acc acc' h he
      cases he
      exact h
  | cons e t ih =>
      intro acc acc' h he
      rw [List.foldlM_cons] at he
      cases hs : stepRow acc e with
      | error err =>
          rw [hs] at he
          have hcon : (Except.error err : Except BuildError Acc) = .ok acc' := he
          cases hcon
      | ok a1 =>
          rw [hs] at he
          exact ih a1 acc' (stepRow_inv acc e a1 h hs) he

/-- The final selection turns the between-rows invariant into the markup
category invariant. -/
theorem buildFinish_inv (acc : Acc) (io : Bool) (m : ReplyMarkup)
    (h : accInv acc) (he : buildFinish acc io = .ok (some m)) :
    markupInvariant m = true := by
  rw [buildFinish] at he
  by_cases h1 : (io && acc.is_normal) = true
  · rw [if_pos h1] at he; cases he
  · rw [if_neg h1] at he
    by_cases h2 : ((acc.is_inline == acc.is_normal) && acc.is_normal) = true
    · rw [if_pos h2] at he; cases he
    · rw [if_neg h2] at he
      cases h3 : acc.is_inline with
      | true =>
          rw [if_pos h3] at he
          cases he
          have hnorm : acc.is_normal = false := by
            cases hn : acc.is_normal
            · rfl
            · exact absurd (by rw [h3, hn]; rfl) h2
          simp only [markupInvariant, List.all_eq_true]
          intro r hr
          exact (h.1 hnorm) r hr
      | false =>
          rw [if_neg (by simp [h3])] at he
          cases he
          simp only [markupInvariant, List.all_eq_true]
          intro r hr
          intro b hb
          simp [(h.2 h3) r hr b hb]

/-- Every markup `buildRows` produces satisfies the category invariant. -/
theorem buildRows_inv (rowsIn : List Entry) (io : Bool) (m : ReplyMarkup)
    (he : buildRows rowsIn io = .ok (some m)) : markupInvariant m = true := by
  rw [buildRows] at he
  cases hf : rowsIn.foldlM stepRow Acc.init with
  | error err => rw [hf] at he; cases he
  | ok acc =>
      rw [hf] at he
      exact buildFinish_inv acc io m
        (foldlM_stepRow_inv rowsIn Acc.init acc
          ⟨fun _ => by simp [Acc.init], fun _ => by simp [Acc.init]⟩ hf) he

/-! Category membership of one input object. -/

/-- The input object carries an inline-category button. -/
def carriesInlineButton (i : MarkupItem) : Bool :=
  (itemButton i).any Button.is_inline

/-- The input object carries a keyboard-category button. -/
def carriesKeyboardButton (i : MarkupItem) : Bool :=
  (itemButton i).any (fun b => !Button.is_inline b)

theorem carriesInlineButton_eq (i : MarkupItem) :
    carriesInlineButton i = seenInline i := by
  cases i <;> rfl

theorem carriesKeyboardButton_seenInline (i : MarkupItem)
    (h : carriesKeyboardButton i = true) : seenInline i = false := by
  cases i <;> simp_all [carriesKeyboardButton, itemButton, seenInline]

/-- Folding `mergeHint` over absent hints changes nothing. -/
theorem foldl_mergeHint_all_none (l : List (Option Bool))
    (h : ∀ x ∈ l, x = none) : ∀ a, l.foldl mergeHint a = a := by
  induction l with
  | nil => intro a; rfl
  | cons x t ih =>
      intro a
      have hx : x = none := h x (by simp)
      rw [List.foldl_cons, hx]
      exact ih (fun y hy => h y (by simp [hy])) a

/-- The rows collected from a flat list of descriptors. -/
theorem flatRows_descriptors (ds : List Button) :
    flatRows (ds.map .descriptor) = ds.map (fun d => ⟨[d.button]⟩) := by
  induction ds with
  | nil => rfl
  | cons d t ih =>
      simp only [List.map_cons, flatRows, List.filterMap_cons, itemButton,
        Option.map_some'] at ih ⊢
      rw [ih]

/-- Building from a flat, non-empty list of keyboard-category descriptors:
one row per descriptor, hints merged left to right. -/
theorem build_flat_descriptors (ds : List Button) (hne : ds ≠ [])
    (hk : ∀ d ∈ ds, Button.is_inline d.button = false) :
    build_reply_markup (.list (ds.map (fun d => .item (.descriptor d)))) false =
      .ok (some (.replyKeyboardMarkup
        (ds.map (fun d => ⟨[d.button]⟩))
        ((ds.map (fun d => d.resize)).foldl mergeHint none)
        ((ds.map (fun d => d.single_use)).foldl mergeHint none)
        ((ds.map (fun d => d.selective)).foldl mergeHint none))) := by
  cases ds with
  | nil => exact absurd rfl hne
  | cons d t =>
      rw [show ((d :: t).map (fun d => Entry.item (.descriptor d))) =
          ((MarkupItem.descriptor d :: t.map .descriptor).map Entry.item) by
        simp [List.map_map]]
      rw [build_flat]
      have hinl : (MarkupItem.descriptor d :: t.map .descriptor).any seenInline = false := by
        rw [List.any_eq_false]
        intro j hj
        rcases List.mem_cons.mp hj with hj | hj
        · simp [hj, seenInline, hk d (by simp)]
        · rcases List.mem_map.mp hj with ⟨d', hd', rfl⟩
          simp [seenInline, hk d' (by simp [hd'])]
      have hnorm : (MarkupItem.descriptor d :: t.map .descriptor).any
          (fun j => !seenInline j) = true := by
        rw [List.any_eq_true]
        refine ⟨.descriptor d, by simp, ?_⟩
        simp [seenInline, hk d (by simp)]
      rw [buildFinish]
      simp only [hinl, hnorm, Bool.false_and, Bool.and_false,
        if_neg (by simp : ¬(false = true))]
      rw [show (MarkupItem.descriptor d :: t.map .descriptor) =
          ((d :: t).map .descriptor) from rfl, flatRows_descriptors]
      rw [if_neg (by decide)]
      rw [List.map_map, List.map_map, List.map_map]
      rw [show itemResize ∘ MarkupItem.descriptor = (fun d : Button => d.resize) from rfl,
        show itemSingleUse ∘ MarkupItem.descriptor =
          (fun d : Button => d.single_use) from rfl,
        show itemSelective ∘ MarkupItem.descriptor =
          (fun d : Button => d.selective) from rfl]

/-- Descriptors always pass the discriminant filter: the buttons kept from a
row of descriptors are exactly the wrapped low-level buttons. -/
theorem filterMap_itemButton_descriptors (row : List Button) :
    (row.map .descriptor).filterMap itemButton = row.map (fun d => d.button) := by
  induction row with
  | nil => rfl
  | cons d t ih => simp [List.filterMap_cons, itemButton, ih]

/-- The rows collected from an explicit grid of descriptors: kept as given,
empty rows omitted. -/
theorem gridRowsOut_descriptors (grid : List (List Button)) :
    gridRowsOut (grid.map (fun row => row.map .descriptor)) =
      grid.filterMap (fun row =>
        if row.isEmpty then none
        else some ⟨row.map (fun d => d.button)⟩) := by
  induction grid with
  | nil => rfl
  | cons g t ih =>
      simp only [List.map_cons, gridRowsOut, List.filterMap_cons,
        filterMap_itemButton_descriptors] at ih ⊢
      rw [ih]
      cases g <;> simp

/-- Building from an explicit, non-empty grid of keyboard-category
descriptors: keyboard markup whose rows are the given rows with empty rows
omitted. -/
theorem build_grid_descriptors (grid : List (List Button)) (hne : grid ≠ [])
    (hk : ∀ row ∈ grid, ∀ d ∈ row, Button.is_inline d.button = false) :
    ∃ r s sl, build_reply_markup
        (.list (grid.map (fun row =>
          Entry.row (row.map (fun d => .item (.descriptor d)))))) false =
      .ok (some (.replyKeyboardMarkup
        (grid.filterMap (fun row =>
          if row.isEmpty then none
          else some ⟨row.map (fun d => d.button)⟩)) r s sl)) := by
  cases grid with
  | nil => exact absurd rfl hne
  | cons g0 t =>
      refine ⟨((g0.map MarkupItem.descriptor ::
            t.map (fun row => row.map MarkupItem.descriptor)).map
            (fun r => r.map itemResize)).foldl
            (fun a hs => hs.foldl mergeHint a) none,
          ((g0.map MarkupItem.descriptor ::
            t.map (fun row => row.map MarkupItem.descriptor)).map
            (fun r => r.map itemSingleUse)).foldl
            (fun a hs => hs.foldl mergeHint a) none,
          ((g0.map MarkupItem.descriptor ::
            t.map (fun row => row.map MarkupItem.descriptor)).map
            (fun r => r.map itemSelective)).foldl
            (fun a hs => hs.foldl mergeHint a) none, ?_⟩
      rw [show ((g0 :: t).map (fun row =>
            Entry.row (row.map (fun d => Entry.item (.descriptor d))))) =
          ((g0.map MarkupItem.descriptor ::
            t.map (fun row => row.map MarkupItem.descriptor)).map
            (fun r => Entry.row (r.map .item))) by
        simp [List.map_map, Function.comp]]
      rw [build_grid]
      have hinl : ((g0.map MarkupItem.descriptor ::
          t.map (fun row => row.map MarkupItem.descriptor)).any
          (fun r => r.any seenInline)) = false := by
        rw [List.any_eq_false]
        intro r hr
        simp only [Bool.not_eq_true]
        rw [List.any_eq_false]
        intro j hj
        simp only [Bool.not_eq_true]
        have : ∃ row ∈ g0 :: t, r = row.map MarkupItem.descriptor := by
          rcases List.mem_cons.mp hr with hr | hr
          · exact ⟨g0, by simp, hr⟩
          · rcases List.mem_map.mp hr with ⟨row, hrow, rfl⟩
            exact ⟨row, by simp [hrow], rfl⟩
        rcases this with ⟨row, hrow, rfl⟩
        rcases List.mem_map.mp hj with ⟨d', hd', rfl⟩
        simp [seenInline, hk row hrow d' hd']
      have hmix : ∀ x : Bool, ((false == x) && x) = false := by decide
      rw [buildFinish]
      simp only [hinl, Bool.false_and, hmix]
      rw [if_neg (by decide), if_neg (by decide), if_neg (by decide)]
      rw [show (g0.map MarkupItem.descriptor ::
          t.map (fun row => row.map MarkupItem.descriptor)) =
          ((g0 :: t).map (fun row => row.map MarkupItem.descriptor)) from rfl,
        gridRowsOut_descriptors]

/-! Properties of the specification, one theorem per claim. -/

/-- C1 (counterexample): the claim fails at the empty byte string.  With
`text = "x"` and `data = b''` (length `0 ≤ 64`), `Button.inline` succeeds
but the payload is the UTF-8 encoding of the text, `[120]`, not the given
empty byte string. -/
theorem inline_empty_bytes_cex :
    Button.inline "x" (.bytes []) = .ok (.keyboardButtonCallback "x" [120]) ∧
    Button.inline "x" (.bytes []) ≠ .ok (.keyboardButtonCallback "x" []) := by
  decide

/-- C1 (amended): for every byte string `d` with `len(d) > 64`,
`Button.inline(text, d)` fails with the validation error; for every
*non-empty* `d` with `len(d) <= 64` it succeeds and the produced callback
button's payload is exactly `d` (the empty byte string is falsy in Python
and is replaced by the UTF-8 encoding of `text`). -/
theorem inline_data_length_check (text : String) (d : List Nat) :
    (64 < d.length →
      Button.inline text (.bytes d) = .error "Too many bytes for the data") ∧
    (d ≠ [] → d.length ≤ 64 →
      Button.inline text (.bytes d) = .ok (.keyboardButtonCallback text d)) := by
  constructor
  · intro h
    cases d with
    | nil => simp at h
    | cons x t =>
        show (if (x :: t).length > 64 then
            (Except.error "Too many bytes for the data" : Except String TLButton)
          else .ok (.keyboardButtonCallback text (x :: t))) = _
        rw [if_pos h]
  · intro hne hle
    cases d with
    | nil => exact absurd rfl hne
    | cons x t =>
        show (if (x :: t).length > 64 then
            (Except.error "Too many bytes for the data" : Except String TLButton)
          else .ok (.keyboardButtonCallback text (x :: t))) = _
        rw [if_neg (by omega)]

/-- C1 (witness): a three-byte payload is preserved exactly and a 65-byte
payload is rejected. -/
theorem inline_data_length_check_witness :
    Button.inline "x" (.bytes [1, 2, 3]) =
      .ok (.keyboardButtonCallback "x" [1, 2, 3]) ∧
    Button.inline "x" (.bytes (List.replicate 65 0)) =
      .error "Too many bytes for the data" :=
  ⟨(inline_data_length_check "x" [1, 2, 3]).2 (by decide) (by decide),
   (inline_data_length_check "x" (List.replicate 65 0)).1 (by decide)⟩

/-- C2: any input collection holding at least one inline-category button and
at least one keyboard-category button, in any order, makes
`build_reply_markup` (with `inline_only = False`) fail with the
"cannot mix" `ValueError`, so no markup is produced. -/
theorem build_mixed_error (items : List MarkupItem)
    (hinl : items.any carriesInlineButton = true)
    (hkb : items.any carriesKeyboardButton = true) :
    build_reply_markup (.list (items.map .item)) false =
      .error (.valueError "You cannot mix inline with normal buttons") := by
  cases items with
  | nil => simp at hinl
  | cons i t =>
      rw [build_flat]
      have h1 : (i :: t).any seenInline = true := by
        rcases List.any_eq_true.mp hinl with ⟨j, hj, hpj⟩
        exact List.any_eq_true.mpr ⟨j, hj, by rwa [← carriesInlineButton_eq]⟩
      have h2 : ((i :: t).any fun j => !seenInline j) = true := by
        rcases List.any_eq_true.mp hkb with ⟨j, hj, hpj⟩
        exact List.any_eq_true.mpr
          ⟨j, hj, by simp [carriesKeyboardButton_seenInline j hpj]⟩
      rw [buildFinish]
      simp [h1, h2]

/-- C2 (witness): a URL button mixed with a text button errors. -/
theorem build_mixed_error_witness :
    build_reply_markup
        (.list [.item (.raw (Button.url "Open" (some "http://x"))),
                .item (.descriptor (Button.text "A" none none none))]) false =
      .error (.valueError "You cannot mix inline with normal buttons") :=
  build_mixed_error
    [.raw (Button.url "Open" (some "http://x")),
     .descriptor (Button.text "A" none none none)]
    (by decide) (by decide)

/-- C3: a value carrying the protocol-level reply-markup tag is returned
unchanged by `build_reply_markup`, and therefore building is idempotent:
whenever `build(x)` produces a markup, feeding that markup back returns the
same result. -/
theorem build_pass_through :
    (∀ (m : ReplyMarkup) (io : Bool),
        build_reply_markup (.single (.markupObj m)) io = .ok (some m)) ∧
    (∀ (bs : Buttons) (io : Bool) (m : ReplyMarkup),
        build_reply_markup bs io = .ok (some m) →
        build_reply_markup (.single (.markupObj m)) io =
          build_reply_markup bs io) := by
  have h1 : ∀ (m : ReplyMarkup) (io : Bool),
      build_reply_markup (.single (.markupObj m)) io = .ok (some m) := by
    intro m io
    simp [build_reply_markup, ReplyMarkup.SUBCLASS_OF_ID, SUBCLASS_OF_ReplyMarkup]
  exact ⟨h1, fun bs io m hm => by rw [h1 m io, hm]⟩

/-- C3 (witness): rebuilding the keyboard markup built from one text button
returns the same markup. -/
theorem build_pass_through_witness :
    build_reply_markup
        (.single (.markupObj
          (.replyKeyboardMarkup [⟨[.keyboardButton "A"]⟩] none none none))) false =
      build_reply_markup (.list [.item (.raw (.keyboardButton "A"))]) false :=
  build_pass_through.2 (.list [.item (.raw (.keyboardButton "A"))]) false
    (.replyKeyboardMarkup [⟨[.keyboardButton "A"]⟩] none none none) (by decide)

/-- C4: with `inline_only = True`, building fails with the "non-inline"
`ValueError` as soon as a keyboard-category button appears anywhere (flat
list or single object), and succeeds producing inline markup when every
button is inline-category (flat list or single object). -/
theorem build_inline_only_check :
    (∀ items : List MarkupItem,
        items.any carriesKeyboardButton = true →
        build_reply_markup (.list (items.map .item)) true =
          .error (.valueError "You cannot use non-inline buttons here")) ∧
    (∀ i : MarkupItem,
        carriesKeyboardButton i = true →
        build_reply_markup (.single i) true =
          .error (.valueError "You cannot use non-inline buttons here")) ∧
    (∀ items : List MarkupItem,
        items ≠ [] →
        (∀ i ∈ items, carriesInlineButton i = true) →
        build_reply_markup (.list (items.map .item)) true =
          .ok (some (.replyInlineMarkup (flatRows items)))) ∧
    (∀ (i : MarkupItem) (b : TLButton),
        itemButton i = some b →
        Button.is_inline b = true →
        build_reply_markup (.single i) true =
          .ok (some (.replyInlineMarkup [⟨[b]⟩]))) := by
  refine ⟨?_, ?_, ?_, ?_⟩
  · intro items hkb
    cases items with
    | nil => simp at hkb
    | cons i t =>
        rw [build_flat]
        have h2 : ((i :: t).any fun j => !seenInline j) = true := by
          rcases List.any_eq_true.mp hkb with ⟨j, hj, hpj⟩
          exact List.any_eq_true.mpr
            ⟨j, hj, by simp [carriesKeyboardButton_seenInline j hpj]⟩
        rw [buildFinish]
        simp [h2]
  · intro i hkb
    have hsi : seenInline i = false := carriesKeyboardButton_seenInline i hkb
    rw [build_single_nonmarkup i true (by
      intro m hm
      rw [hm] at hkb
      simp [carriesKeyboardButton, itemButton] at hkb)]
    rw [buildFinish]
    simp [hsi]
  · intro items hne hinl
    cases items with
    | nil => exact absurd rfl hne
    | cons i t =>
        rw [build_flat]
        have h1 : (i :: t).any seenInline = true := by
          refine List.any_eq_true.mpr ⟨i, by simp, ?_⟩
          rw [← carriesInlineButton_eq]
          exact hinl i (by simp)
        have h2 : ((i :: t).any fun j => !seenInline j) = false := by
          rw [List.any_eq_false]
          intro j hj
          have := hinl j hj
          rw [carriesInlineButton_eq] at this
          simp [this]
        rw [buildFinish]
        simp [h1, h2]
  · intro i b hb hbi
    have hsi : seenInline i = true := by
      rw [seenInline_itemButton i b hb]
      exact hbi
    rw [build_single_nonmarkup i true (by
      intro m hm
      rw [hm] at hb
      simp [itemButton] at hb)]
    rw [buildFinish]
    simp [hsi, flatRows, List.filterMap_cons, hb]

/-- C4 (witness): a single URL button passes `inline_only`; a single text
button is rejected. -/
theorem build_inline_only_check_witness :
    build_reply_markup (.single (.raw (Button.url "Open" (some "http://x")))) true =
      .ok (some (.replyInlineMarkup [⟨[.keyboardButtonUrl "Open" "http://x"]⟩])) ∧
    build_reply_markup (.single (.descriptor (Button.text "A" none none none))) true =
      .error (.valueError "You cannot use non-inline buttons here") :=
  ⟨build_inline_only_check.2.2.2 (.raw (Button.url "Open" (some "http://x")))
      (.keyboardButtonUrl "Open" "http://x") (by decide) (by decide),
   build_inline_only_check.2.1 (.descriptor (Button.text "A" none none none))
      (by decide)⟩

/-- C5: over a flat run of descriptors (row-major, left-to-right), each
non-absent `resize`/`single_use`/`selective` hint overwrites the builder-wide
accumulator and an absent hint never does, so the produced keyboard markup
carries, for each hint, the last non-absent value encountered. -/
theorem build_hint_merge (ds : List Button) (hne : ds ≠ [])
    (hk : ∀ d ∈ ds, Button.is_inline d.button = false) :
    build_reply_markup (.list (ds.map (fun d => .item (.descriptor d)))) false =
      .ok (some (.replyKeyboardMarkup
        (ds.map (fun d => ⟨[d.button]⟩))
        ((ds.filterMap (fun d => d.resize)).getLast?)
        ((ds.filterMap (fun d => d.single_use)).getLast?)
        ((ds.filterMap (fun d => d.selective)).getLast?))) := by
  rw [build_flat_descriptors ds hne hk]
  rw [foldl_mergeHint_none, foldl_mergeHint_none, foldl_mergeHint_none]
  rw [List.filterMap_map, List.filterMap_map, List.filterMap_map]
  rfl

/-- C5 (witness): `resize = True` on the first descriptor survives an unset
`resize` on the second, and the produced markup has `resize = True`. -/
theorem build_hint_merge_witness :
    build_reply_markup
        (.list [.item (.descriptor (Button.text "A" (some true) none none)),
                .item (.descriptor (Button.text "B" none none none))]) false =
      .ok (some (.replyKeyboardMarkup
        [⟨[.keyboardButton "A"]⟩, ⟨[.keyboardButton "B"]⟩]
        (some true) none none)) :=
  build_hint_merge
    [Button.text "A" (some true) none none, Button.text "B" none none none]
    (by decide) (by decide)

/-- C6: a non-empty collection in which no element carries a protocol-tagged
button (here: already-built markup objects, which are the droppable inputs)
neither yields `None` nor raises: it falls through to a keyboard markup with
an empty row list. -/
theorem build_all_dropped (ms : List ReplyMarkup) (hne : ms ≠ []) :
    build_reply_markup (.list (ms.map (fun m => .item (.markupObj m)))) false =
      .ok (some (.replyKeyboardMarkup [] none none none)) := by
  cases ms with
  | nil => exact absurd rfl hne
  | cons m t =>
      rw [show ((m :: t).map (fun m => Entry.item (.markupObj m))) =
          ((MarkupItem.markupObj m :: t.map .markupObj).map Entry.item) by
        simp [List.map_map]]
      rw [build_flat]
      have hmem : ∀ j ∈ (MarkupItem.markupObj m :: t.map .markupObj),
          ∃ m', j = .markupObj m' := by
        intro j hj
        rcases List.mem_cons.mp hj with hj | hj
        · exact ⟨m, hj⟩
        · rcases List.mem_map.mp hj with ⟨m', hm', rfl⟩
          exact ⟨m', rfl⟩
      have h1 : (MarkupItem.markupObj m :: t.map .markupObj).any seenInline = false := by
        rw [List.any_eq_false]
        intro j hj
        rcases hmem j hj with ⟨m', rfl⟩
        simp [seenInline]
      have h2 : ((MarkupItem.markupObj m :: t.map .markupObj).any
          fun j => !seenInline j) = true :=
        List.any_eq_true.mpr ⟨.markupObj m, by simp, by simp [seenInline]⟩
      have hr : ∀ f : MarkupItem → Option Bool,
          (∀ m', f (.markupObj m') = none) →
          ((MarkupItem.markupObj m :: t.map .markupObj).map f).foldl
            mergeHint none = none := by
        intro f hf
        refine foldl_mergeHint_all_none _ ?_ none
        intro x hx
        rcases List.mem_map.mp hx with ⟨j, hj, rfl⟩
        rcases hmem j hj with ⟨m', rfl⟩
        exact hf m'
      have hrows : flatRows (MarkupItem.markupObj m :: t.map .markupObj) = [] := by
        rw [flatRows, List.filterMap_eq_nil_iff]
        intro j hj
        rcases hmem j hj with ⟨m', rfl⟩
        rfl
      rw [buildFinish]
      simp only [h1, h2, hrows, hr itemResize (fun m' => rfl),
        hr itemSingleUse (fun m' => rfl), hr itemSelective (fun m' => rfl)]
      simp

/-- C6 (witness): a list holding only the `Button.clear` directive builds an
empty keyboard markup instead of returning `None` or raising. -/
theorem build_all_dropped_witness :
    build_reply_markup (.list [.item (.markupObj (Button.clear none))]) false =
      .ok (some (.replyKeyboardMarkup [] none none none)) :=
  build_all_dropped [Button.clear none] (by decide)

/-- C7: shape normalization — a single descriptor becomes a one-row,
one-button grid (keyboard or inline according to its category); a flat
sequence becomes one button per row; a sequence of sequences is used as
given as explicit rows, with empty rows omitted. -/
theorem build_shape_normalization :
    (∀ d : Button, Button.is_inline d.button = false →
        build_reply_markup (.single (.descriptor d)) false =
          .ok (some (.replyKeyboardMarkup [⟨[d.button]⟩]
            d.resize d.single_use d.selective))) ∧
    (∀ b : TLButton, Button.is_inline b = true →
        build_reply_markup (.single (.raw b)) false =
          .ok (some (.replyInlineMarkup [⟨[b]⟩]))) ∧
    (∀ ds : List Button, ds ≠ [] →
        (∀ d ∈ ds, Button.is_inline d.button = false) →
        ∃ r s sl,
          build_reply_markup (.list (ds.map (fun d => .item (.descriptor d)))) false =
            .ok (some (.replyKeyboardMarkup
              (ds.map (fun d => ⟨[d.button]⟩)) r s sl))) ∧
    (∀ grid : List (List Button), grid ≠ [] →
        (∀ row ∈ grid, ∀ d ∈ row, Button.is_inline d.button = false) →
        ∃ r s sl,
          build_reply_markup (.list (grid.map (fun row =>
              Entry.row (row.map (fun d => .item (.descriptor d)))))) false =
            .ok (some (.replyKeyboardMarkup
              (grid.filterMap (fun row =>
                if row.isEmpty then none
                else some ⟨row.map (fun d => d.button)⟩)) r s sl))) := by
  refine ⟨?_, ?_, ?_, build_grid_descriptors⟩
  · intro d hd
    rw [build_single_nonmarkup _ _ (fun m hm => MarkupItem.noConfusion hm)]
    rw [buildFinish]
    simp [seenInline, hd, flatRows, List.filterMap_cons, itemButton,
      itemResize, itemSingleUse, itemSelective]
  · intro b hb
    rw [build_single_nonmarkup _ _ (fun m hm => MarkupItem.noConfusion hm)]
    rw [buildFinish]
    simp [seenInline, hb, flatRows, List.filterMap_cons, itemButton]
  · intro ds hne hk
    exact ⟨_, _, _, build_flat_descriptors ds hne hk⟩

/-- C7 (witness): `[[text "A"], [text "B", text "C"]]` yields keyboard markup
with exactly two rows, `["A"]` and `["B", "C"]`, in order. -/
theorem build_shape_normalization_witness :
    ∃ r s sl,
      build_reply_markup
          (.list [.row [.item (.descriptor (Button.text "A" none none none))],
                  .row [.item (.descriptor (Button.text "B" none none none)),
                        .item (.descriptor (Button.text "C" none none none))]]) false =
        .ok (some (.replyKeyboardMarkup
          [⟨[.keyboardButton "A"]⟩, ⟨[.keyboardButton "B", .keyboardButton "C"]⟩]
          r s sl)) :=
  build_shape_normalization.2.2.2
    [[Button.text "A" none none none],
     [Button.text "B" none none none, Button.text "C" none none none]]
    (by decide) (by decide)

/-- C8 (counterexample): the claim fails on the pass-through branch — an
already-built inline markup holding a keyboard-category button is returned
by `build_reply_markup` unchanged, so build does return a markup violating
the category invariant. -/
theorem build_markup_invariant_cex :
    build_reply_markup
        (.single (.markupObj (.replyInlineMarkup [⟨[.keyboardButton "A"]⟩]))) false =
      .ok (some (.replyInlineMarkup [⟨[.keyboardButton "A"]⟩])) ∧
    markupInvariant (.replyInlineMarkup [⟨[.keyboardButton "A"]⟩]) = false := by
  decide

/-- C8 (amended): every markup that `build_reply_markup` *constructs* — on
any input other than an already-built markup returned unchanged by the
pass-through — satisfies the category invariant: inline markup holds only
inline-category buttons and keyboard markup only keyboard-category ones. -/
theorem build_markup_invariant (bs : Buttons) (io : Bool) (m : ReplyMarkup)
    (hnp : ∀ m0, bs ≠ .single (.markupObj m0))
    (hm : build_reply_markup bs io = .ok (some m)) :
    markupInvariant m = true := by
  cases bs with
  | noneB => cases hm
  | single i =>
      cases i with
      | markupObj m0 => exact absurd rfl (hnp m0)
      | descriptor b =>
          exact buildRows_inv [.row [.item (.descriptor b)]] io m hm
      | messageButton b =>
          exact buildRows_inv [.row [.item (.messageButton b)]] io m hm
      | raw b =>
          exact buildRows_inv [.row [.item (.raw b)]] io m hm
  | list es =>
      cases es with
      | nil => cases hm
      | cons first rest =>
          rw [build_reply_markup] at hm
          cases hfl : first.is_list_like with
          | true =>
              rw [if_pos hfl] at hm
              exact buildRows_inv _ io m hm
          | false =>
              rw [if_neg (by simp [hfl])] at hm
              exact buildRows_inv _ io m hm

/-- C8 (witness): the keyboard markup built from one text button satisfies
the invariant. -/
theorem build_markup_invariant_witness :
    markupInvariant (.replyKeyboardMarkup [⟨[.keyboardButton "A"]⟩] none none none) =
      true :=
  build_markup_invariant (.list [.item (.raw (.keyboardButton "A"))]) false
    (.replyKeyboardMarkup [⟨[.keyboardButton "A"]⟩] none none none)
    (fun m0 h => Buttons.noConfusion h) (by decide)

/-- C9: the directives produced by `Button.clear` and `Button.force_reply`
carry the protocol-level reply-markup tag, so passing either of them alone
to the builder returns it unchanged through the pass-through branch, for any
`inline_only` — bypassing shape normalization, classification and the
mixing/inline-only validation. -/
theorem clear_force_reply_pass_through (sel su : Option Bool)
    (ph : Option String) (io : Bool) :
    (Button.clear sel).SUBCLASS_OF_ID = SUBCLASS_OF_ReplyMarkup ∧
    (Button.force_reply su sel ph).SUBCLASS_OF_ID = SUBCLASS_OF_ReplyMarkup ∧
    build_reply_markup (.single (.markupObj (Button.clear sel))) io =
      .ok (some (Button.clear sel)) ∧
    build_reply_markup (.single (.markupObj (Button.force_reply su sel ph))) io =
      .ok (some (Button.force_reply su sel ph)) := by
  refine ⟨rfl, rfl, ?_, ?_⟩ <;>
    simp [build_reply_markup, ReplyMarkup.SUBCLASS_OF_ID, SUBCLASS_OF_ReplyMarkup]

/-- C10: only the first element decides the shape.  If it is sequence-like,
the whole input is taken as explicit rows and a later plain element is not
re-wrapped — iterating it raises `TypeError`; if it is not sequence-like,
every element is wrapped into its own one-element row, including a later
sequence, whose inner list then raises `AttributeError` at the discriminant
read. -/
theorem build_first_element_shape :
    (∀ (r : List MarkupItem) (i : MarkupItem) (rest : List Entry) (io : Bool),
        build_reply_markup (.list (Entry.row (r.map .item) :: .item i :: rest)) io =
          .error .typeError) ∧
    (∀ (i : MarkupItem) (cells rest : List Entry) (io : Bool),
        build_reply_markup (.list (.item i :: .row cells :: rest)) io =
          .error .attributeError) := by
  constructor
  · intro r i rest io
    show buildRows (Entry.row (r.map .item) :: .item i :: rest) io = _
    rw [buildRows, List.foldlM_cons, stepRow_items]
    exact rfl
  · intro i cells rest io
    show buildRows ((Entry.item i :: Entry.row cells :: rest).map
      (fun e => Entry.row [e])) io = _
    rw [buildRows]
    rw [show ((Entry.item i :: Entry.row cells :: rest).map (fun e => Entry.row [e])) =
        (Entry.row ([i].map .item) :: Entry.row [Entry.row cells] ::
          rest.map (fun e => Entry.row [e])) from rfl]
    rw [List.foldlM_cons, stepRow_items]
    exact rfl

end Telethon
